import Mathlib

/-!
Shallow embedding of the TrekTrack photo-route application
(src/types.ts, src/components/ElevationProfile.tsx — which also holds App.tsx,
src/components/Map.tsx — which also holds Gallery.tsx).

Conventions of the embedding:
* EXIF numeric values and GPS coordinates are rationals (the code holds JS
  doubles; none of the verified claims depends on rounding of the binary
  floating point format, except the haversine computation which is modelled
  over the reals).
* A JS `Date` is its millisecond value, an `Int`.  Fields of type
  `Date | undefined` become `Option Int`.  The Invalid-Date state produced by
  `new Date(<malformed>)` matters only inside the metadata extractor; there a
  date is `Option Int` with `none` standing for an Invalid Date, and the field
  `timestamp` of the extracted location is `Option (Option Int)` (absent,
  or a present-but-possibly-invalid Date object).
* `Array.prototype.sort` with comparator `keyA - keyB` is, per the ECMAScript
  specification, a stable sort by the integer key; the embedding uses a stable
  insertion sort, which computes the same list as any stable sort by the
  same key.
-/

namespace TrekTrack

/-- GPSLocation of src/types.ts: lat, lng, optional alt, optional timestamp
(milliseconds since epoch; only valid dates — the Invalid-Date case is
modelled separately with the extractor). -/
structure GPSLocation where
  lat : ℚ
  lng : ℚ
  alt : Option ℚ := none
  timestamp : Option Int := none
  deriving DecidableEq, Repr

/-- CameraMetadata of src/types.ts. -/
structure CameraMetadata where
  make : Option String := none
  model : Option String := none
  exposureTime : Option String := none
  fNumber : Option String := none
  iso : Option String := none
  focalLength : Option String := none
  lens : Option String := none
  deriving DecidableEq, Repr

/-- TrekPhoto of src/types.ts.  `url` is the object URL (the display handle),
`base64` the inline encoding. -/
structure TrekPhoto where
  id : String
  name : String
  url : String
  base64 : String
  location : Option GPSLocation := none
  camera : Option CameraMetadata := none
  mimeType : String
  deriving DecidableEq, Repr

/-- The sort key used everywhere in the code:
`(p.location?.timestamp?.getTime() || 0)` — missing location or missing
timestamp contribute key 0 (and a timestamp of exactly epoch 0 is already 0,
so the JS `|| 0` does not change it). -/
def sortKey (p : TrekPhoto) : Int :=
  match p.location with
  | some l =>
    match l.timestamp with
    | some t => t
    | none => 0
  | none => 0

/-- Stable insertion into a list sorted by `sortKey`: the new element goes
in front of the first member whose key is not smaller.  Folding it over a
list (below) computes the unique stable ascending sort by `sortKey`, which
is what the ECMAScript stable `Array.prototype.sort` with comparator
`(a, b) => keyA - keyB` produces. -/
def stableInsert (p : TrekPhoto) : List TrekPhoto → List TrekPhoto
  | [] => [p]
  | q :: rest =>
    if sortKey q < sortKey p then q :: stableInsert p rest
    else p :: q :: rest

/-- Stable ascending sort by `sortKey`, the model of
`.sort((a, b) => (a.location?.timestamp?.getTime() || 0) - (b.location?.timestamp?.getTime() || 0))`. -/
def stableSortByKey : List TrekPhoto → List TrekPhoto
  | [] => []
  | p :: rest => stableInsert p (stableSortByKey rest)

/-- Whether a photo is geotagged (`p.location` non-null). -/
def hasLocation (p : TrekPhoto) : Bool :=
  p.location.isSome

/-- The time-ordered trek: the geotagged subset in ascending timestamp order.
This is `gpsPhotos` of `stats` in App (`photos.filter(p => p.location).sort(...)`)
and `validPhotos` of Map.tsx. -/
def timeOrderedTrek (photos : List TrekPhoto) : List TrekPhoto :=
  stableSortByKey (photos.filter hasLocation)

/-- The model of `sortedPhotos` in App: ALL photos (geotagged or not) sorted
by the same key. -/
def sortedPhotos (photos : List TrekPhoto) : List TrekPhoto :=
  stableSortByKey photos

/-- Key-ordering relation between photos. -/
def keyLE (a b : TrekPhoto) : Prop :=
  sortKey a ≤ sortKey b

theorem stableInsert_perm (p : TrekPhoto) (l : List TrekPhoto) :
    List.Perm (stableInsert p l) (p :: l) := by
  induction l with
  | nil => simp [stableInsert]
  | cons q rest ih =>
    by_cases h : sortKey q < sortKey p
    · simp only [stableInsert, if_pos h]
      exact (ih.cons q).trans (List.Perm.swap p q rest)
    · simp [stableInsert, if_neg h]

theorem mem_stableInsert (x p : TrekPhoto) (l : List TrekPhoto) :
    x ∈ stableInsert p l ↔ x = p ∨ x ∈ l := by
  rw [(stableInsert_perm p l).mem_iff]
  simp

theorem stableSortByKey_perm (l : List TrekPhoto) :
    List.Perm (stableSortByKey l) l := by
  induction l with
  | nil => simp [stableSortByKey]
  | cons p rest ih =>
    exact (stableInsert_perm p (stableSortByKey rest)).trans (ih.cons p)

theorem pairwise_stableInsert (p : TrekPhoto) (l : List TrekPhoto)
    (h : List.Pairwise keyLE l) :
    List.Pairwise keyLE (stableInsert p l) := by
  induction l with
  | nil => simp [stableInsert]
  | cons q rest ih =>
    rw [List.pairwise_cons] at h
    by_cases hlt : sortKey q < sortKey p
    · simp only [stableInsert, if_pos hlt]
      rw [List.pairwise_cons]
      refine ⟨?_, ih h.2⟩
      intro x hx
      rcases (mem_stableInsert x p rest).mp hx with hxp | hxl
      · subst hxp; exact le_of_lt hlt
      · exact h.1 x hxl
    · simp only [stableInsert, if_neg hlt]
      rw [List.pairwise_cons]
      refine ⟨?_, by rw [List.pairwise_cons]; exact h⟩
      intro x hx
      rcases List.mem_cons.mp hx with hxq | hxl
      · subst hxq; exact le_of_not_lt hlt
      · exact le_trans (le_of_not_lt hlt) (h.1 x hxl)

theorem pairwise_stableSortByKey (l : List TrekPhoto) :
    List.Pairwise keyLE (stableSortByKey l) := by
  induction l with
  | nil => simp [stableSortByKey]
  | cons p rest ih => exact pairwise_stableInsert p _ ih

/-- Inserting an element whose key is not above any member's key puts it in
front. -/
theorem stableInsert_eq_cons (p : TrekPhoto) (l : List TrekPhoto)
    (h : ∀ x ∈ l, sortKey p ≤ sortKey x) :
    stableInsert p l = p :: l := by
  cases l with
  | nil => rfl
  | cons q rest =>
    have : ¬ sortKey q < sortKey p := not_lt.mpr (h q (by simp))
    simp [stableInsert, this]

/-- Filtering distributes over stable insertion into a key-sorted list. -/
theorem filter_stableInsert (pr : TrekPhoto → Bool) (p : TrekPhoto)
    (l : List TrekPhoto) (hs : List.Pairwise keyLE l) :
    (stableInsert p l).filter pr =
      if pr p then stableInsert p (l.filter pr) else l.filter pr := by
  induction l with
  | nil => cases hp : pr p <;> simp [stableInsert, hp]
  | cons q rest ih =>
    rw [List.pairwise_cons] at hs
    by_cases hlt : sortKey q < sortKey p
    · cases hp : pr p <;> cases hq : pr q <;>
        simp [stableInsert, hlt, List.filter_cons, hp, hq, ih hs.2]
    · cases hp : pr p with
      | false => simp [stableInsert, hlt, List.filter_cons, hp]
      | true =>
        cases hq : pr q with
        | true => simp [stableInsert, hlt, List.filter_cons, hp, hq]
        | false =>
          have hall : ∀ x ∈ rest.filter pr, sortKey p ≤ sortKey x := by
            intro x hx
            exact le_trans (le_of_not_lt hlt) (hs.1 x (List.mem_of_mem_filter hx))
          simp [stableInsert, hlt, List.filter_cons, hp, hq,
            stableInsert_eq_cons p _ hall]

/-- Filtering commutes with the stable sort. -/
theorem filter_stableSortByKey (pr : TrekPhoto → Bool) (l : List TrekPhoto) :
    (stableSortByKey l).filter pr = stableSortByKey (l.filter pr) := by
  induction l with
  | nil => rfl
  | cons p rest ih =>
    show (stableInsert p (stableSortByKey rest)).filter pr = _
    rw [filter_stableInsert pr p _ (pairwise_stableSortByKey rest)]
    cases hp : pr p with
    | true =>
      rw [List.filter_cons_of_pos (by simp [hp]), if_pos rfl]
      show stableInsert p ((stableSortByKey rest).filter pr) = _
      rw [ih]
      rfl
    | false =>
      rw [List.filter_cons_of_neg (by simp [hp]), if_neg (by simp [hp])]
      exact ih

/-- Stability: for each key value, the sorted list keeps the members with that
key in their original relative order. -/
theorem stability_stableSortByKey (l : List TrekPhoto) (k : Int) :
    (stableSortByKey l).filter (fun p => sortKey p = k) =
      l.filter (fun p => sortKey p = k) := by
  induction l with
  | nil => rfl
  | cons p rest ih =>
    show (stableInsert p (stableSortByKey rest)).filter _ = _
    rw [filter_stableInsert _ p _ (pairwise_stableSortByKey rest)]
    by_cases hp : sortKey p = k
    · have hall : ∀ x ∈ rest.filter (fun q => decide (sortKey q = k)),
          sortKey p ≤ sortKey x := by
        intro x hx
        have hxk := List.of_mem_filter hx
        simp only [decide_eq_true_eq] at hxk
        rw [hp, hxk]
      rw [if_pos (by simp [hp]), ih, stableInsert_eq_cons p _ hall,
        List.filter_cons_of_pos (by simp [hp])]
    · rw [if_neg (by simp [hp]), ih, List.filter_cons_of_neg (by simp [hp])]

/-! Trek statistics engine (`stats` in App, src/components/ElevationProfile.tsx
lines 252-277). -/

/-- JS `Math.round`: round half toward positive infinity. -/
def jsRound (q : ℚ) : Int :=
  ⌊q + 1 / 2⌋

/-- JS `Math.atan2 (y, x)`. -/
noncomputable def atan2 (y x : ℝ) : ℝ :=
  if 0 < x then Real.arctan (y / x)
  else if x < 0 then
    (if 0 ≤ y then Real.arctan (y / x) + Real.pi else Real.arctan (y / x) - Real.pi)
  else if 0 < y then Real.pi / 2
  else if y < 0 then -(Real.pi / 2)
  else 0

/-- One haversine segment, exactly as in the loop body of `stats`:
Earth radius 6371 km, degree inputs converted with `* Math.PI / 180`. -/
noncomputable def haversine (l1 l2 : GPSLocation) : ℝ :=
  let dLat : ℝ := ((l2.lat - l1.lat : ℚ) : ℝ) * Real.pi / 180
  let dLon : ℝ := ((l2.lng - l1.lng : ℚ) : ℝ) * Real.pi / 180
  let a : ℝ := Real.sin (dLat / 2) ^ 2 +
    Real.cos ((l1.lat : ℝ) * Real.pi / 180) * Real.cos ((l2.lat : ℝ) * Real.pi / 180) *
      Real.sin (dLon / 2) ^ 2
  6371 * (2 * atan2 (Real.sqrt a) (Real.sqrt (1 - a)))

/-- Haversine on photos (the loop dereferences `location!` of two photos that
passed the geotag filter; absent locations cannot occur there and contribute 0). -/
noncomputable def havPhoto (p q : TrekPhoto) : ℝ :=
  match p.location, q.location with
  | some l1, some l2 => haversine l1 l2
  | _, _ => 0

/-- The accumulation `dist += ...` of the `for` loop over indices
`i = 0 .. length - 2`: one segment per consecutive pair. -/
noncomputable def distLoop : List TrekPhoto → ℝ
  | p :: q :: rest => havPhoto p q + distLoop (q :: rest)
  | _ => 0

/-- One step of the `maxA = Math.max(maxA, alt)` accumulation; `none` is the
initial `-Infinity`.  The loop applies it to `gpsPhotos[i]` for
`i = 0 .. length - 2` and then once to the last photo, i.e. to every member
in order. -/
def altFoldStep (acc : Option ℚ) (p : TrekPhoto) : Option ℚ :=
  match p.location with
  | some l =>
    match l.alt with
    | some a => some (match acc with | none => a | some m => max m a)
    | none => acc
  | none => acc

/-- The `maxA` accumulation over the ordered geotagged photos. -/
def altMax (l : List TrekPhoto) : Option ℚ :=
  l.foldl altFoldStep none

/-- Timestamp of the first ordered photo (`gpsPhotos[0].location?.timestamp`). -/
def firstTs (l : List TrekPhoto) : Option Int :=
  l.head?.bind (fun p => p.location.bind GPSLocation.timestamp)

/-- Timestamp of the last ordered photo. -/
def lastTs (l : List TrekPhoto) : Option Int :=
  l.getLast?.bind (fun p => p.location.bind GPSLocation.timestamp)

/-- The derived statistics record (`stats` is `null` below 2 geotagged
photos).  `distance` is the kilometre sum before the `toFixed(2)` display
formatting; `maxAlt` and `duration` carry the `Math.round` of the source. -/
structure TrekStats where
  distance : ℝ
  maxAlt : Option Int
  duration : Option Int

/-- The `stats` memo of App: geotagged subset, sorted by timestamp; `null`
when fewer than 2 geotagged photos; otherwise distance, rounded peak
altitude (when any altitude was seen) and rounded whole-minute duration
(when first and last both carry timestamps). -/
noncomputable def stats (photos : List TrekPhoto) : Option TrekStats :=
  let gps := timeOrderedTrek photos
  if gps.length < 2 then none
  else some
    { distance := distLoop gps
      maxAlt := (altMax gps).map jsRound
      duration :=
        match firstTs gps, lastTs gps with
        | some t0, some t1 => some (jsRound (((t1 - t0 : Int) : ℚ) / 60000))
        | _, _ => none }

/-! Export serializer (`exportGPX` in App, lines 279-306). -/

/-- Character-level model of `name.replace(/&/g, case amp)`: every ampersand
becomes the five characters of its entity form. -/
def escapeAmpChars : List Char → List Char
  | [] => []
  | c :: rest =>
    if c = '&' then '&' :: 'a' :: 'm' :: 'p' :: ';' :: escapeAmpChars rest
    else c :: escapeAmpChars rest

/-- String-level ampersand escaping. -/
def escapeAmp (s : String) : String :=
  ⟨escapeAmpChars s.data⟩

/-- Checks that every ampersand of a character list is the head of an
`amp;` entity. -/
def ampOK : List Char → Bool
  | [] => true
  | c :: rest =>
    if c = '&' then
      match rest with
      | 'a' :: 'm' :: 'p' :: ';' :: rest2 => ampOK rest2
      | _ => false
    else ampOK rest

/-- One `trkpt` element of the generated document. -/
structure TrkPt where
  lat : ℚ
  lng : ℚ
  ele : Option ℚ
  time : Option Int
  name : String
  deriving DecidableEq, Repr

/-- The track point written for one geotagged photo: `<ele>` is emitted under
JS truthiness of `p.location!.alt` (so an altitude of exactly 0 emits
nothing), `<time>` whenever the `Date` object is present (a present `Date`
is always truthy), and the name with ampersands escaped. -/
def mkTrkpt (p : TrekPhoto) (l : GPSLocation) : TrkPt :=
  { lat := l.lat
    lng := l.lng
    ele := match l.alt with
      | some a => if a = 0 then none else some a
      | none => none
    time := l.timestamp
    name := escapeAmp p.name }

/-- The generated GPX document, abstracted to its creator attribute and its
`trkpt` list (the fixed envelope text carries no claim-relevant data). -/
structure GpxDoc where
  creator : String
  points : List TrkPt
  deriving DecidableEq, Repr

/-- `exportGPX`: filters `sortedPhotos` to the geotagged ones; if none exist
it returns without producing a document; otherwise one `trkpt` per photo. -/
def exportGPX (photos : List TrekPhoto) : Option GpxDoc :=
  let valid := (sortedPhotos photos).filter hasLocation
  if valid.isEmpty then none
  else some
    { creator := "TrekTrack"
      points := valid.filterMap (fun p => p.location.map (mkTrkpt p)) }

/-! Ingestion pipeline (`processFiles` in App, lines 170-216).  Each file is
processed independently inside a `try`/`catch` that turns any sub-step
failure (metadata extraction, HEIC transcoding, base64 encoding) into `null`;
all outcomes are collected by `Promise.all` before the single
`setPhotos(prev => [...prev, ...validNewPhotos])` append, so the batch call
itself never throws. -/

/-- The collected per-file outcomes (`none` is the `null` a failed file
contributes) merged into the collection by the one atomic append. -/
def processFiles (prev : List TrekPhoto) (results : List (Option TrekPhoto)) :
    List TrekPhoto :=
  prev ++ results.filterMap id

/-! Session state and `handleClearAll` (App lines 233-244) together with the
Map component playback flag (`isPlaying` of src/components/Map.tsx). -/

/-- The mutable session state: App state plus the Map playback flag. -/
structure SessionState where
  photos : List TrekPhoto
  activePhotoId : Option String
  isGalleryOpen : Bool
  galleryIndex : Nat
  isPlaying : Bool
  deriving DecidableEq, Repr

/-- The confirmed branch of `handleClearAll`: revokes every member object
URL, then empties the collection and resets the App selection and gallery
state.  It does not touch the Map playback flag.  Returns the new state with
the list of revoked display handles in revocation order. -/
def handleClearAll (s : SessionState) : SessionState × List String :=
  ({ photos := []
     activePhotoId := none
     isGalleryOpen := false
     galleryIndex := 0
     isPlaying := s.isPlaying },
   s.photos.map TrekPhoto.url)

/-! Playback (`runPlayback` of src/components/Map.tsx, lines 44-67).  Time is
measured in seconds; the loop checks `playbackRef.current === null` before
each selection and dwells 3 seconds after each.  `stopPlayback` sets the ref
to null, so a cancellation requested during a dwell is observed at the next
check.  The cancellation is modelled by the index of the first check that
observes it. -/

/-- Whether the check before iteration `i` observes the cancellation. -/
def cancelObserved : Option Nat → Nat → Bool
  | none, _ => false
  | some k, i => decide (k ≤ i)

/-- The selection trace of the playback loop from iteration `i`: pairs of
(selection time in seconds, waypoint id). -/
def playTrace (c : Option Nat) : List String → Nat → List (Nat × String)
  | [], _ => []
  | p :: rest, i =>
    if cancelObserved c i then []
    else (3 * i, p) :: playTrace c rest (i + 1)

/-- `runPlayback` over the ordered waypoint ids with cancellation first
observable at check `k` (or never). -/
def runPlayback (wps : List String) (c : Option Nat) : List (Nat × String) :=
  playTrace c wps 0

/-- The playback flag after `runPlayback` returns: the early return on an
empty waypoint list skips the final `setIsPlaying(false)`. -/
def finalIsPlaying (wps : List String) : Bool :=
  wps.isEmpty

/-! Collection operations for the lifetime invariant (C9): ingestion appends,
`deletePhoto` filters by id, `handleClearAll` empties. -/

/-- The three mutations of the photo collection. -/
inductive TrekOp where
  | ingest (newPhotos : List TrekPhoto)
  | removeById (pid : String)
  | clearAll
  deriving DecidableEq, Repr

/-- Application of one operation, as in the source `setPhotos` updaters. -/
def applyOp (ps : List TrekPhoto) : TrekOp → List TrekPhoto
  | .ingest new => ps ++ new
  | .removeById pid => ps.filter (fun p => p.id ≠ pid)
  | .clearAll => []

/-- The collection reached from the empty initial state by a sequence of
operations. -/
def runOps (ops : List TrekOp) : List TrekPhoto :=
  ops.foldl applyOp []

/-- Whether an ingest batch carries ids that are pairwise distinct and unused
in the current collection.  The source draws ids from
`Math.random().toString(36).substr(2, 9)` without any collision check, so
this is not guaranteed by the code. -/
def freshIngest (ps : List TrekPhoto) : TrekOp → Bool
  | .ingest new =>
    decide ((new.map TrekPhoto.id).Nodup ∧ ∀ p ∈ new, p.id ∉ ps.map TrekPhoto.id)
  | _ => true

/-- Whether every ingest along a run supplies fresh ids. -/
def goodRun : List TrekPhoto → List TrekOp → Bool
  | _, [] => true
  | ps, op :: rest => freshIngest ps op && goodRun (applyOp ps op) rest

/-! Metadata extractor (`extractGpsData` of src, second section of
src/types.ts).  `ExifReader.load` and `new Date` are external collaborators:
the tag set is an input (with `none` for a load that threw, swallowed by the
`catch`), and date parsing is a parameter mapping a string to `some`
milliseconds or to `none` for the Invalid Date that `new Date` yields on
unparseable input. -/

/-- The EXIF tags the extractor reads, with numeric descriptions as
rationals. -/
structure ExifTags where
  gpsLat : Option ℚ
  gpsLng : Option ℚ
  gpsAlt : Option ℚ
  dateTimeOriginal : Option String
  deriving DecidableEq, Repr

/-- The extractor result.  `timestamp` distinguishes the absent field
(`none`) from a present `Date` object that may itself be the Invalid Date
(`some none`). -/
structure GPSLocationJS where
  lat : ℚ
  lng : ℚ
  alt : Option ℚ
  timestamp : Option (Option Int)
  deriving DecidableEq, Repr

/-- The `replace(/^(\d{4}):(\d{2}):(\d{2})/, dollar1-dollar2-dollar3)`
normalization: when the string opens with four digits, a colon, two digits,
a colon and two digits, those two colons become hyphens; otherwise the
string is unchanged. -/
def normalizeExifDate (s : String) : String :=
  match s.data with
  | a :: b :: c :: d :: c1 :: e :: f :: c2 :: g :: h :: rest =>
    if a.isDigit && b.isDigit && c.isDigit && d.isDigit && c1 = ':' &&
       e.isDigit && f.isDigit && c2 = ':' && g.isDigit && h.isDigit then
      ⟨a :: b :: c :: d :: '-' :: e :: f :: '-' :: g :: h :: rest⟩
    else s
  | _ => s

/-- `extractGpsData`: requires latitude and longitude tags together, applies
JS truthiness to the altitude (0 is dropped), and for `DateTimeOriginal`
normalizes the description and, when non-empty, stores whatever
`new Date(dateStr)` yields — including the Invalid Date (`some none`). -/
def extractGpsData (parseDate : String → Option Int) (tags : Option ExifTags) :
    Option GPSLocationJS :=
  match tags with
  | none => none
  | some t =>
    match t.gpsLat, t.gpsLng with
    | some lat, some lng =>
      some
        { lat := lat
          lng := lng
          alt := match t.gpsAlt with
            | some a => if a = 0 then none else some a
            | none => none
          timestamp := match t.dateTimeOriginal with
            | some ds =>
              if normalizeExifDate ds = "" then none
              else some (parseDate (normalizeExifDate ds))
            | none => none }
    | _, _ => none

/-! Helper lemmas. -/

theorem timeOrderedTrek_length (photos : List TrekPhoto) :
    (timeOrderedTrek photos).length = (photos.filter hasLocation).length :=
  (stableSortByKey_perm (photos.filter hasLocation)).length_eq

theorem filterMap_id_length (results : List (Option TrekPhoto)) :
    (results.filterMap id).length = results.length - results.countP Option.isNone := by
  induction results with
  | nil => rfl
  | cons r rest ih =>
    have hle : rest.countP Option.isNone ≤ rest.length := List.countP_le_length _
    cases r <;> simp [List.filterMap_cons, List.countP_cons, ih]
    all_goals omega

/-! Claim C1.  The claim as frozen also asserts that a photo with a missing
timestamp always sorts first; the code keys a missing timestamp as epoch 0,
so a photo carrying a pre-epoch (negative) timestamp sorts before it.  The
counterexample below exhibits this; the amended statement keeps everything
else: the trek is the geotagged subset, stable-sorted ascending by the key
that maps a missing timestamp to 0. -/

/-- C1 (amended): the time-ordered trek is a permutation of the geotagged
subset, sorted ascending by the key, stable (members of equal key keep
their original relative order), where the key of a photo with a missing
timestamp is 0 (epoch) and the key of a dated photo is its timestamp. -/
theorem c1_trek_is_stable_sort_by_epoch0_key (photos : List TrekPhoto) :
    List.Perm (timeOrderedTrek photos) (photos.filter hasLocation) ∧
    List.Pairwise keyLE (timeOrderedTrek photos) ∧
    (∀ k : Int, (timeOrderedTrek photos).filter (fun p => sortKey p = k)
        = (photos.filter hasLocation).filter (fun p => sortKey p = k)) ∧
    (∀ p l, p.location = some l → l.timestamp = none → sortKey p = 0) ∧
    (∀ p l t, p.location = some l → l.timestamp = some t → sortKey p = t) := by
  refine ⟨stableSortByKey_perm _, pairwise_stableSortByKey _,
    fun k => stability_stableSortByKey _ k, ?_, ?_⟩
  · intro p l hl ht
    simp [sortKey, hl, ht]
  · intro p l t hl ht
    simp [sortKey, hl, ht]

def c1PhotoNoTs : TrekPhoto :=
  { id := "m", name := "m.jpg", url := "url-m", base64 := ""
    location := some ⟨0, 0, none, none⟩, mimeType := "image/jpeg" }

def c1PhotoPreEpoch : TrekPhoto :=
  { id := "n", name := "n.jpg", url := "url-n", base64 := ""
    location := some ⟨0, 0, none, some (-1)⟩, mimeType := "image/jpeg" }

/-- C1 counterexample: with a geotagged photo dated before the epoch
(timestamp -1 ms), the photo with the missing timestamp does NOT sort
first — the pre-epoch photo precedes it. -/
theorem c1_missing_timestamp_does_not_sort_first :
    timeOrderedTrek [c1PhotoNoTs, c1PhotoPreEpoch]
        = [c1PhotoPreEpoch, c1PhotoNoTs] ∧
    c1PhotoNoTs.location.map GPSLocation.timestamp = some none ∧
    c1PhotoPreEpoch.location.map GPSLocation.timestamp = some (some (-1)) := by
  decide

def c1Loc : GPSLocation := ⟨1, 2, none, none⟩

def c1PhotoW : TrekPhoto :=
  { id := "w", name := "w.jpg", url := "url-w", base64 := ""
    location := some c1Loc, mimeType := "image/jpeg" }

/-- C1 witness: the amended theorem applied at a concrete photo with a
missing timestamp. -/
theorem c1_witness :
    c1PhotoW.location = some c1Loc ∧ c1Loc.timestamp = none ∧ sortKey c1PhotoW = 0 :=
  ⟨rfl, rfl, (c1_trek_is_stable_sort_by_epoch0_key [c1PhotoW]).2.2.2.1 c1PhotoW c1Loc rfl rfl⟩

/-! Claim C2: the statistics record is `null` exactly below two geotagged
photos. -/

/-- C2: the derived trek statistics are absent (an explicit `null`, not a
zero record) exactly when the geotagged photo count is 0 or 1, and present
whenever at least 2 geotagged photos exist. -/
theorem c2_stats_absent_iff_fewer_than_two (photos : List TrekPhoto) :
    (stats photos = none ↔
      (photos.filter hasLocation).length = 0 ∨ (photos.filter hasLocation).length = 1) ∧
    (2 ≤ (photos.filter hasLocation).length → (stats photos).isSome = true) := by
  have hlen := timeOrderedTrek_length photos
  constructor
  · rw [stats]
    by_cases h : (timeOrderedTrek photos).length < 2
    · simp only [if_pos h]
      constructor
      · intro _; omega
      · intro _; trivial
    · simp only [if_neg h]
      constructor
      · intro hc; exact absurd hc (by simp)
      · intro hc; exfalso; omega
  · intro h2
    rw [stats]
    rw [if_neg (by omega)]
    rfl

def c2PhotoA : TrekPhoto :=
  { id := "a", name := "a.jpg", url := "url-a", base64 := ""
    location := some ⟨0, 0, none, some 0⟩, mimeType := "image/jpeg" }

def c2PhotoB : TrekPhoto :=
  { id := "b", name := "b.jpg", url := "url-b", base64 := ""
    location := some ⟨0, 1, none, some 60000⟩, mimeType := "image/jpeg" }

/-- C2 witness: with two concrete geotagged photos the statistics are
present. -/
theorem c2_witness :
    2 ≤ ([c2PhotoA, c2PhotoB].filter hasLocation).length ∧
    (stats [c2PhotoA, c2PhotoB]).isSome = true :=
  ⟨by decide, (c2_stats_absent_iff_fewer_than_two [c2PhotoA, c2PhotoB]).2 (by decide)⟩

/-! Claim C4: batch ingestion of N outcomes with K failures grows the
collection by N - K in one atomic append.  The model is total — each
per-file `try`/`catch` turns a sub-step failure into `null`, so the batch
call never throws. -/

/-- C4: with N per-file outcomes of which K are failures (`null`), the
collection grows by exactly N - K, and the previous collection is the
untouched prefix of the single appended result. -/
theorem c4_batch_growth (prev : List TrekPhoto) (results : List (Option TrekPhoto)) :
    (processFiles prev results).length
        = prev.length + (results.length - results.countP Option.isNone) ∧
    (processFiles prev results).take prev.length = prev := by
  constructor
  · simp [processFiles, filterMap_id_length]
  · simp [processFiles]

/-! Claim C7.  `handleClearAll` revokes each member's object URL once,
empties the collection and resets the App selection/gallery state — but it
never touches the Map component's playback flag, so a running playback is
not returned to idle by clearing.  The claim is corrected accordingly. -/

/-- C7 (amended): clearing is one state transition that empties the
collection, resets the selection to no-selection, and releases each
member's display handle exactly once (the handles being pairwise distinct,
as object URLs are); the playback mode flag is left unchanged. -/
theorem c7_clear_releases_once_selection_cleared (s : SessionState) :
    (handleClearAll s).1.photos = [] ∧
    (handleClearAll s).1.activePhotoId = none ∧
    (handleClearAll s).1.isPlaying = s.isPlaying ∧
    (handleClearAll s).2.length = s.photos.length ∧
    ((s.photos.map TrekPhoto.url).Nodup →
      ∀ p ∈ s.photos, (handleClearAll s).2.count p.url = 1) := by
  refine ⟨rfl, rfl, rfl, by simp [handleClearAll], ?_⟩
  intro hnd p hp
  exact List.count_eq_one_of_mem hnd (List.mem_map_of_mem TrekPhoto.url hp)

def c7Photo : TrekPhoto :=
  { id := "c7", name := "c7.jpg", url := "url-c7", base64 := ""
    location := none, mimeType := "image/jpeg" }

def c7PlayingState : SessionState :=
  { photos := [c7Photo], activePhotoId := some "c7", isGalleryOpen := false
    galleryIndex := 0, isPlaying := true }

/-- C7 counterexample: clearing while a playback is running leaves the
playback flag set — the playback mode is NOT left at idle. -/
theorem c7_clear_does_not_stop_playback :
    ¬ ((handleClearAll c7PlayingState).1.isPlaying = false) := by
  decide

def c7IdleState : SessionState :=
  { photos := [c7Photo], activePhotoId := some "c7", isGalleryOpen := false
    galleryIndex := 0, isPlaying := false }

/-- C7 witness: the amended theorem applied at a concrete one-photo state. -/
theorem c7_witness :
    (c7IdleState.photos.map TrekPhoto.url).Nodup ∧
    (handleClearAll c7IdleState).2.count c7Photo.url = 1 :=
  ⟨by decide,
   (c7_clear_releases_once_selection_cleared c7IdleState).2.2.2.2 (by decide)
     c7Photo (by decide)⟩

/-! Claim C9.  Ids come from `Math.random().toString(36).substr(2, 9)` with
no check against the existing collection, so two ingested photos can carry
the same id; the uniqueness invariant holds only under the freshness
assumption the code does not enforce.  Photos themselves are never rewritten
by any operation, so a member keeps its id for its whole membership. -/

theorem nodup_ids_applyOp (ps : List TrekPhoto) (op : TrekOp)
    (hnd : (ps.map TrekPhoto.id).Nodup) (hop : freshIngest ps op = true) :
    ((applyOp ps op).map TrekPhoto.id).Nodup := by
  cases op with
  | ingest new =>
    simp only [freshIngest, decide_eq_true_eq] at hop
    simp only [applyOp, List.map_append]
    rw [List.nodup_append]
    refine ⟨hnd, hop.1, ?_⟩
    intro a ha hb
    rcases List.mem_map.mp hb with ⟨p, hp, hpa⟩
    exact hop.2 p hp (hpa ▸ ha)
  | removeById pid =>
    exact ((List.filter_sublist ps).map TrekPhoto.id).nodup hnd
  | clearAll =>
    simp [applyOp]

theorem nodup_ids_foldl (ops : List TrekOp) :
    ∀ ps, (ps.map TrekPhoto.id).Nodup → goodRun ps ops = true →
      ((ops.foldl applyOp ps).map TrekPhoto.id).Nodup := by
  induction ops with
  | nil => intro ps hnd _; exact hnd
  | cons op rest ih =>
    intro ps hnd hrun
    simp only [goodRun, Bool.and_eq_true] at hrun
    exact ih (applyOp ps op) (nodup_ids_applyOp ps op hnd hrun.1) hrun.2

/-- C9 (amended): provided every ingest supplies ids that are pairwise
distinct and unused in the current collection (which the code's random
generator makes likely but does not guarantee), every reachable collection
has pairwise distinct ids; and every operation either keeps a member
untouched or removes it, so a photo keeps its id for its whole
membership. -/
theorem c9_ids_nodup_of_fresh_generation (ops : List TrekOp)
    (hrun : goodRun [] ops = true) :
    ((runOps ops).map TrekPhoto.id).Nodup ∧
    (∀ ps op p, p ∈ applyOp ps op →
      p ∈ ps ∨ ∃ new, op = TrekOp.ingest new ∧ p ∈ new) := by
  constructor
  · exact nodup_ids_foldl ops [] (by simp) hrun
  · intro ps op p hp
    cases op with
    | ingest new =>
      rcases List.mem_append.mp hp with h | h
      · exact Or.inl h
      · exact Or.inr ⟨new, rfl, h⟩
    | removeById pid => exact Or.inl (List.mem_of_mem_filter hp)
    | clearAll => exact absurd hp (List.not_mem_nil p)

def c9DupPhoto1 : TrekPhoto :=
  { id := "dup", name := "1.jpg", url := "url-1", base64 := ""
    location := none, mimeType := "image/jpeg" }

def c9DupPhoto2 : TrekPhoto :=
  { id := "dup", name := "2.jpg", url := "url-2", base64 := ""
    location := none, mimeType := "image/jpeg" }

/-- C9 counterexample: the generator is random and unchecked, so a run in
which one batch carries the same id twice is reachable, and the resulting
collection has two members with equal ids. -/
theorem c9_duplicate_ids_reachable :
    ¬ ((runOps [TrekOp.ingest [c9DupPhoto1, c9DupPhoto2]]).map TrekPhoto.id).Nodup := by
  decide

def c9FreshPhoto : TrekPhoto :=
  { id := "only", name := "o.jpg", url := "url-o", base64 := ""
    location := none, mimeType := "image/jpeg" }

/-- C9 witness: the amended theorem applied to a concrete fresh run. -/
theorem c9_witness :
    goodRun [] [TrekOp.ingest [c9FreshPhoto]] = true ∧
    ((runOps [TrekOp.ingest [c9FreshPhoto]]).map TrekPhoto.id).Nodup :=
  ⟨by decide,
   (c9_ids_nodup_of_fresh_generation [TrekOp.ingest [c9FreshPhoto]] (by decide)).1⟩

/-! Claim C10: JS truthiness makes an altitude of exactly 0 behave as
absent at the two public surfaces: the extractor drops it
(`alt ? Number(alt) : undefined`) and the exporter writes no `<ele>`
(`p.location!.alt ? ele : empty`). -/

/-- C10: a zero altitude is omitted by location extraction (the result is
identical to extracting with no altitude tag at all, and carries
`alt = none`), and the exported track point of a zero-altitude waypoint has
no elevation element and is identical to that of the same waypoint without
altitude. -/
theorem c10_zero_altitude_treated_as_absent :
    (∀ (parseDate : String → Option Int) (lat lng : ℚ) (dto : Option String),
      extractGpsData parseDate (some ⟨some lat, some lng, some 0, dto⟩)
          = extractGpsData parseDate (some ⟨some lat, some lng, none, dto⟩) ∧
      (extractGpsData parseDate (some ⟨some lat, some lng, some 0, dto⟩)).map
          GPSLocationJS.alt = some none) ∧
    (∀ (p : TrekPhoto) (lat lng : ℚ) (ts : Option Int),
      mkTrkpt p ⟨lat, lng, some 0, ts⟩ = mkTrkpt p ⟨lat, lng, none, ts⟩ ∧
      (mkTrkpt p ⟨lat, lng, some 0, ts⟩).ele = none) := by
  constructor
  · intro parseDate lat lng dto
    constructor
    · simp [extractGpsData]
    · simp [extractGpsData]
  · intro p lat lng ts
    constructor
    · simp [mkTrkpt]
    · simp [mkTrkpt]

/-! Claim C5.  The export filters to the geotagged photos of the sorted
list, which (proved below) equals the trek ordering; it emits no document at
all when that subset is empty.  But the `<ele>` element is guarded by JS
truthiness, so an altitude of exactly 0 — although present — emits no
elevation element; the claim's "an elevation element exactly when altitude
is present" fails there and is amended to "present and nonzero". -/

theorem ampOK_cons_ne (c : Char) (rest : List Char) (hc : ¬ c = '&') :
    ampOK (c :: rest) = ampOK rest := by
  rw [ampOK.eq_def]
  simp [hc]

theorem ampOK_amp (l : List Char) :
    ampOK ('&' :: 'a' :: 'm' :: 'p' :: ';' :: l) = ampOK l := by
  rw [ampOK.eq_def]
  simp

theorem ampOK_escapeAmpChars (cs : List Char) :
    ampOK (escapeAmpChars cs) = true := by
  induction cs with
  | nil => rfl
  | cons c rest ih =>
    by_cases hc : c = '&'
    · subst hc
      rw [show escapeAmpChars ('&' :: rest)
          = '&' :: 'a' :: 'm' :: 'p' :: ';' :: escapeAmpChars rest from by
        simp [escapeAmpChars]]
      rw [ampOK_amp]
      exact ih
    · simp only [escapeAmpChars, if_neg hc]
      rw [ampOK_cons_ne c _ hc]
      exact ih

/-- The per-point correspondence between a geotagged photo and its exported
track point. -/
def trkptMatches (p : TrekPhoto) (pt : TrkPt) : Prop :=
  ∀ l, p.location = some l →
    pt.lat = l.lat ∧ pt.lng = l.lng ∧
    (pt.ele = none ↔ (l.alt = none ∨ l.alt = some 0)) ∧
    (pt.ele.isSome = true ↔ ∃ a, l.alt = some a ∧ a ≠ 0) ∧
    pt.time = l.timestamp ∧
    pt.name = escapeAmp p.name ∧
    ampOK pt.name.data = true

theorem trkptMatches_mkTrkpt (p : TrekPhoto) (lp : GPSLocation)
    (hp : p.location = some lp) : trkptMatches p (mkTrkpt p lp) := by
  intro l hl
  rw [hp] at hl
  injection hl with hl
  subst hl
  refine ⟨rfl, rfl, ?_, ?_, rfl, rfl, ?_⟩
  · cases hal : lp.alt with
    | none => simp [mkTrkpt, hal]
    | some a =>
      by_cases ha : a = 0
      · subst ha; simp [mkTrkpt, hal]
      · simp [mkTrkpt, hal, ha]
  · cases hal : lp.alt with
    | none => simp [mkTrkpt, hal]
    | some a =>
      by_cases ha : a = 0
      · subst ha; simp [mkTrkpt, hal]
      · simp [mkTrkpt, hal, ha]
  · show ampOK (escapeAmp p.name).data = true
    exact ampOK_escapeAmpChars p.name.data

theorem forall2_trkpt (l : List TrekPhoto)
    (hall : ∀ p ∈ l, hasLocation p = true) :
    List.Forall₂ trkptMatches l
      (l.filterMap (fun p => p.location.map (mkTrkpt p))) := by
  induction l with
  | nil => simp
  | cons p rest ih =>
    have hp := hall p (by simp)
    rcases Option.isSome_iff_exists.mp (by simpa [hasLocation] using hp) with ⟨lp, hlp⟩
    rw [List.filterMap_cons]
    simp only [hlp, Option.map_some]
    exact List.Forall₂.cons (trkptMatches_mkTrkpt p lp hlp)
      (ih (fun q hq => hall q (by simp [hq])))

/-- C5 (amended): export yields no document exactly when zero geotagged
photos exist; otherwise the document's track points correspond one-to-one,
in trek (ascending time) order, to the geotagged photos: latitude and
longitude copied, an elevation element exactly when altitude is present AND
nonzero, a time element exactly when a timestamp is present, and the name
with every ampersand escaped to its entity form. -/
theorem c5_export_spec (photos : List TrekPhoto) :
    (exportGPX photos = none ↔ photos.filter hasLocation = []) ∧
    (∀ doc, exportGPX photos = some doc →
      doc.creator = "TrekTrack" ∧
      List.Forall₂ trkptMatches (timeOrderedTrek photos) doc.points) := by
  have hcomm : (sortedPhotos photos).filter hasLocation = timeOrderedTrek photos :=
    filter_stableSortByKey hasLocation photos
  have hnil : timeOrderedTrek photos = [] ↔ photos.filter hasLocation = [] := by
    constructor
    · intro h
      have h2 : stableSortByKey (photos.filter hasLocation) = [] := h
      have hl := (stableSortByKey_perm (photos.filter hasLocation)).length_eq
      rw [h2] at hl
      exact List.eq_nil_of_length_eq_zero hl.symm
    · intro h
      show stableSortByKey (photos.filter hasLocation) = []
      rw [h]
      rfl
  constructor
  · rw [exportGPX]
    simp only [hcomm]
    by_cases h : timeOrderedTrek photos = []
    · simp [h, hnil.mp h]
    · have hemp : (timeOrderedTrek photos).isEmpty = false := by
        simpa [List.isEmpty_iff] using h
      rw [if_neg (by simp [hemp])]
      constructor
      · intro hc; exact absurd hc (by simp)
      · intro hc; exact absurd (hnil.mpr hc) h
  · intro doc hdoc
    rw [exportGPX] at hdoc
    simp only [hcomm] at hdoc
    by_cases h : (timeOrderedTrek photos).isEmpty = true
    · rw [if_pos h] at hdoc
      exact absurd hdoc (by simp)
    · rw [if_neg h] at hdoc
      injection hdoc with hdoc
      subst hdoc
      refine ⟨rfl, ?_⟩
      refine forall2_trkpt _ ?_
      intro p hp
      have : p ∈ photos.filter hasLocation :=
        (stableSortByKey_perm (photos.filter hasLocation)).mem_iff.mp hp
      exact (List.mem_filter.mp this).2

def c5PhotoZeroAlt : TrekPhoto :=
  { id := "z", name := "zero.jpg", url := "url-z", base64 := ""
    location := some ⟨1, 2, some 0, some 5⟩, mimeType := "image/jpeg" }

/-- C5 counterexample: a waypoint whose altitude is present and equal to 0
is exported WITHOUT an elevation element, refuting "an elevation element
exactly when altitude is present". -/
theorem c5_zero_altitude_has_no_ele :
    (exportGPX [c5PhotoZeroAlt]).map (fun d => d.points.map TrkPt.ele)
        = some [none] ∧
    c5PhotoZeroAlt.location.map GPSLocation.alt = some (some 0) := by
  decide

def c5PhotoW : TrekPhoto :=
  { id := "g", name := "p&q.jpg", url := "url-g", base64 := ""
    location := some ⟨10, 20, some 150, some 1704067200000⟩
    mimeType := "image/jpeg" }

def c5DocW : GpxDoc :=
  { creator := "TrekTrack"
    points := [⟨10, 20, some 150, some 1704067200000, "p&amp;q.jpg"⟩] }

/-- C5 witness: the amended theorem applied at a concrete one-photo
collection and its concrete document. -/
theorem c5_witness :
    exportGPX [c5PhotoW] = some c5DocW ∧
    List.Forall₂ trkptMatches (timeOrderedTrek [c5PhotoW]) c5DocW.points :=
  ⟨by decide, ((c5_export_spec [c5PhotoW]).2 c5DocW (by decide)).2⟩

/-! Claim C6.  The playback loop checks the cancellation ref before every
selection and dwells 3 seconds after every selection, so the selection at
step j happens at time 3j, the uncancelled walk selects every waypoint in
ascending trek order, a cancellation first observed at check k stops the
loop after exactly the first k selections (within one dwell period of the
request), and the loop never clears the last selection. -/

theorem playTrace_none_eq (wps : List String) :
    ∀ i, playTrace none wps i
        = (wps.enumFrom i).map (fun x => (3 * x.1, x.2)) := by
  induction wps with
  | nil => intro i; rfl
  | cons p rest ih =>
    intro i
    simp only [playTrace, cancelObserved, List.enumFrom, List.map_cons]
    rw [if_neg (by simp)]
    rw [ih (i + 1)]

theorem playTrace_some_eq (k : Nat) (wps : List String) :
    ∀ i, playTrace (some k) wps i
        = ((wps.take (k - i)).enumFrom i).map (fun x => (3 * x.1, x.2)) := by
  induction wps with
  | nil => intro i; simp [playTrace]
  | cons p rest ih =>
    intro i
    by_cases hki : k ≤ i
    · have hz : k - i = 0 := by omega
      simp [playTrace, cancelObserved, hki, hz]
    · have hs : k - i = (k - (i + 1)) + 1 := by omega
      simp only [playTrace, cancelObserved]
      rw [if_neg (by simp; omega)]
      rw [hs, List.take_succ_cons]
      simp only [List.enumFrom, List.map_cons]
      rw [ih (i + 1)]

theorem mapsnd_scaled (l : List String) :
    ∀ i, ((l.enumFrom i).map (fun x => (3 * x.1, x.2))).map Prod.snd = l := by
  induction l with
  | nil => intro i; rfl
  | cons p rest ih =>
    intro i
    simp only [List.enumFrom, List.map_cons, ih (i + 1)]

/-- C6: the uncancelled playback selects exactly the trek waypoints in
order, waypoint j at time 3j seconds, and ends with the playing flag
cleared; a stop first observed at check k (requested during the preceding
dwell, after time 3(k-1)) yields exactly the first k selections, leaves a
waypoint selected, and halts before the request time plus one dwell
period. -/
theorem c6_playback_spec (wps : List String) (k : Nat) (tReq : ℚ)
    (hne : wps ≠ []) (hk : 0 < k) (hreq : 3 * ((k : ℚ) - 1) < tReq) :
    runPlayback wps none = (wps.enumFrom 0).map (fun x => (3 * x.1, x.2)) ∧
    (runPlayback wps none).map Prod.snd = wps ∧
    finalIsPlaying wps = false ∧
    runPlayback wps (some k)
        = ((wps.take k).enumFrom 0).map (fun x => (3 * x.1, x.2)) ∧
    (runPlayback wps (some k)).map Prod.snd = wps.take k ∧
    (runPlayback wps (some k)).map Prod.snd ≠ [] ∧
    (3 * ((runPlayback wps (some k)).length : ℚ)) < tReq + 3 := by
  have h1 : runPlayback wps none = (wps.enumFrom 0).map (fun x => (3 * x.1, x.2)) :=
    playTrace_none_eq wps 0
  have h4 : runPlayback wps (some k)
      = ((wps.take k).enumFrom 0).map (fun x => (3 * x.1, x.2)) := by
    have := playTrace_some_eq k wps 0
    rwa [Nat.sub_zero] at this
  have h5 : (runPlayback wps (some k)).map Prod.snd = wps.take k := by
    rw [h4]; exact mapsnd_scaled (wps.take k) 0
  refine ⟨h1, by rw [h1]; exact mapsnd_scaled wps 0, ?_, h4, h5, ?_, ?_⟩
  · cases wps with
    | nil => exact absurd rfl hne
    | cons p rest => rfl
  · rw [h5]
    cases wps with
    | nil => exact absurd rfl hne
    | cons p rest =>
      cases k with
      | zero => exact absurd hk (by omega)
      | succ k2 => simp [List.take_succ_cons]
  · have hlen : (runPlayback wps (some k)).length = min k wps.length := by
      rw [h4]
      simp [List.length_take]
    rw [hlen]
    have hmin : ((min k wps.length : ℕ) : ℚ) ≤ (k : ℚ) := by
      exact_mod_cast Nat.min_le_left k wps.length
    linarith

def c6Wps : List String := ["a", "b", "c"]

/-- C6 witness: the playback theorem applied at three concrete waypoints
with cancellation observed at check 2 of a request at 4 seconds. -/
theorem c6_witness :
    c6Wps ≠ [] ∧ 0 < 2 ∧ 3 * ((2 : ℚ) - 1) < 4 ∧
    ((runPlayback c6Wps (some 2)).map Prod.snd = c6Wps.take 2 ∧
      (3 * ((runPlayback c6Wps (some 2)).length : ℚ)) < 4 + 3) :=
  ⟨by decide, by decide, by norm_num,
   (c6_playback_spec c6Wps 2 4 (by decide) (by decide) (by norm_num)).2.2.2.2.1,
   (c6_playback_spec c6Wps 2 4 (by decide) (by decide) (by norm_num)).2.2.2.2.2.2⟩

/-! Claim C3: the distance statistic is the sum, over consecutive pairs of
the time-ordered trek, of the haversine great-circle distance with Earth
radius 6371 km; one equatorial degree measures about 111.19 km and identical
coordinates contribute 0. -/

/-- The claim-side formulation of the distance: the sum over the list of
consecutive pairs. -/
noncomputable def consecutivePairSum (l : List TrekPhoto) : ℝ :=
  ((l.zip l.tail).map (fun pq => havPhoto pq.1 pq.2)).sum

theorem distLoop_eq_pairSum (l : List TrekPhoto) :
    distLoop l = consecutivePairSum l := by
  induction l with
  | nil => simp [distLoop, consecutivePairSum]
  | cons p rest ih =>
    cases rest with
    | nil => simp [distLoop, consecutivePairSum]
    | cons q rest2 =>
      rw [show distLoop (p :: q :: rest2) = havPhoto p q + distLoop (q :: rest2)
        from rfl, ih]
      simp [consecutivePairSum, List.zip_cons_cons]

theorem haversine_same_coords (la ln : ℚ) (a1 a2 : Option ℚ) (t1 t2 : Option Int) :
    haversine ⟨la, ln, a1, t1⟩ ⟨la, ln, a2, t2⟩ = 0 := by
  unfold haversine atan2
  norm_num [Real.sqrt_one, Real.arctan_zero]

theorem haversine_equator_one_degree :
    haversine ⟨0, 0, none, none⟩ ⟨0, 1, none, none⟩ = 6371 * Real.pi / 180 := by
  have hpi := Real.pi_pos
  have hsin : 0 ≤ Real.sin (Real.pi / 360) := by
    apply Real.sin_nonneg_of_nonneg_of_le_pi
    · positivity
    · linarith
  have hcpos : 0 < Real.cos (Real.pi / 360) := by
    apply Real.cos_pos_of_mem_Ioo
    constructor
    · linarith
    · linarith
  have hsq : 1 - Real.sin (Real.pi / 360) ^ 2 = Real.cos (Real.pi / 360) ^ 2 := by
    have := Real.sin_sq_add_cos_sq (Real.pi / 360)
    linarith
  unfold haversine atan2
  have h0 : ((0 : ℚ) : ℝ) = 0 := by norm_num
  have hdlat : (((0 : ℚ) - 0 : ℚ) : ℝ) * Real.pi / 180 = 0 := by norm_num
  have hdlon : (((1 : ℚ) - 0 : ℚ) : ℝ) * Real.pi / 180 = Real.pi / 180 := by norm_num
  rw [hdlat, hdlon, h0]
  norm_num
  rw [show Real.pi / 180 / 2 = Real.pi / 360 by ring]
  rw [Real.sqrt_sq hsin]
  rw [hsq, Real.sqrt_sq (le_of_lt hcpos)]
  have hlt1 : Real.sin (Real.pi / 360) < 1 := by
    have hx : Real.sin (Real.pi / 360) < Real.pi / 360 := Real.sin_lt (by positivity)
    have hp4 := Real.pi_lt_four
    linarith
  have habs : |Real.sin (Real.pi / 360)| < 1 := by
    rw [abs_of_nonneg hsin]; exact hlt1
  rw [if_pos habs]
  rw [← Real.tan_eq_sin_div_cos]
  rw [Real.arctan_tan (by linarith) (by linarith)]
  ring

/-- C3: above 2 geotagged photos, the distance statistic is exactly the sum
of the haversine segments over consecutive trek pairs; one degree of
longitude on the equator measures 111.19 km up to half a kilometre; and two
waypoints at identical coordinates are 0 km apart. -/
theorem c3_distance_spec :
    (∀ photos : List TrekPhoto, 2 ≤ (timeOrderedTrek photos).length →
      ∃ s, stats photos = some s ∧
        s.distance = consecutivePairSum (timeOrderedTrek photos)) ∧
    |haversine ⟨0, 0, none, none⟩ ⟨0, 1, none, none⟩ - 111.19| ≤ 1 / 2 ∧
    (∀ (la ln : ℚ) (a1 a2 : Option ℚ) (t1 t2 : Option Int),
      haversine ⟨la, ln, a1, t1⟩ ⟨la, ln, a2, t2⟩ = 0) := by
  refine ⟨?_, ?_, haversine_same_coords⟩
  · intro photos h2
    rw [stats, if_neg (by omega)]
    exact ⟨_, rfl, distLoop_eq_pairSum _⟩
  · rw [haversine_equator_one_degree]
    rw [abs_le]
    constructor
    · have := Real.pi_gt_d4
      nlinarith
    · have := Real.pi_lt_d4
      nlinarith

def c3PhotoA : TrekPhoto :=
  { id := "p1", name := "p1.jpg", url := "url-p1", base64 := ""
    location := some ⟨0, 0, none, some 0⟩, mimeType := "image/jpeg" }

def c3PhotoB : TrekPhoto :=
  { id := "p2", name := "p2.jpg", url := "url-p2", base64 := ""
    location := some ⟨0, 1, none, some 3600000⟩, mimeType := "image/jpeg" }

/-- C3 witness: the distance theorem applied at two concrete geotagged
photos. -/
theorem c3_witness :
    2 ≤ (timeOrderedTrek [c3PhotoA, c3PhotoB]).length ∧
    ∃ s, stats [c3PhotoA, c3PhotoB] = some s ∧
      s.distance = consecutivePairSum (timeOrderedTrek [c3PhotoA, c3PhotoB]) :=
  ⟨by decide, c3_distance_spec.1 [c3PhotoA, c3PhotoB] (by decide)⟩

/-! Claim C8.  The normalization of `YYYY:MM:DD HH:MM:SS` (first two colons
to hyphens) is implemented as claimed.  But a malformed non-empty timestamp
string is passed to `new Date(dateStr)`, whose result — the Invalid Date —
is stored on the returned location: the timestamp is present (and invalid),
not absent as the claim and spec require; downstream,
`exportGPX` calls `toISOString()` on it, which throws.  The claim matches
the clear intent (the extractor swallows all metadata errors), so this is
recorded as a bug in the code. -/

def c8BadTags : ExifTags :=
  { gpsLat := some 1, gpsLng := some 2, gpsAlt := none
    dateTimeOriginal := some "corrupted date" }

/-- The date parser for the failing input: `new Date` cannot parse the
malformed string, so every parse yields the Invalid Date. -/
def c8NullParse : String → Option Int := fun _ => none

/-- C8: the code evaluated at the failing input.  The well-formed EXIF date
is normalized exactly as claimed, but the malformed timestamp string
produces a location whose timestamp field is PRESENT and holds the Invalid
Date (`some none`) — not the absent timestamp the claim states. -/
theorem c8_malformed_timestamp_stored_as_invalid_date :
    normalizeExifDate "2024:01:02 03:04:05" = "2024-01-02 03:04:05" ∧
    normalizeExifDate "corrupted date" = "corrupted date" ∧
    (extractGpsData c8NullParse (some c8BadTags)).map GPSLocationJS.timestamp
        = some (some none) := by
  refine ⟨?_, ?_, ?_⟩ <;> decide

end TrekTrack
